import Mathlib

/-!
Shallow embedding of `django_olcc/olcc/management/commands/olccimport.py`,
the OLCC product/price import command.

Field parsers become pure Lean functions; the database is an explicit
state threaded through the upsert engine; Python exceptions are modelled
by `Except PyExn`.  Line numbers in doc comments refer to `olccimport.py`.
-/

/-- Python exceptions that can be raised or caught in `olccimport.py`. -/
inductive PyExn where
  | integrityError
  | multipleObjectsReturned
  | attributeError
  | typeError
  | valueError
  | unboundLocalError
  deriving Repr, DecidableEq

/-- A calendar date, as `datetime.date` / the date part of `datetime.datetime`. -/
structure Date where
  year : Int
  month : Nat
  day : Nat
  deriving Repr, DecidableEq

/-- The value stored in `product.age` is dynamically typed in the source:
the months branch (line 75) stores an `int`, while the years branch
(line 77) stores the raw matched digit string. -/
inductive AgeVal where
  | ofNat (n : Nat)
  | ofStr (s : String)
  deriving Repr, DecidableEq

/-- A `Product` record.  `code` is `Option String` because the source passes
`row.get('code')` (possibly `None`) straight to `get_or_create`.  All other
fields start out unset. -/
structure Product where
  code : Option String
  title : Option String
  status : Option String
  size : Option String
  bottles_per_case : Option Int
  proof : Option String
  age : Option AgeVal
  deriving Repr, DecidableEq

/-- A `ProductPrice` record (amount, effective date, owning product code). -/
structure ProductPrice where
  amount : String
  effective_date : Date
  productCode : Option String
  deriving Repr, DecidableEq

/-- The database state visible to this command. -/
structure DB where
  products : List Product
  prices : List ProductPrice
  deriving Repr, DecidableEq

deriving instance DecidableEq for Except

/-- Python whitespace, as stripped by `str.strip()`. -/
def isPyWhitespace (c : Char) : Bool :=
  c == ' ' || c == '\t' || c == '\n' || c == '\r' || c == '\x0b' || c == '\x0c'

/-- Python `str.strip()`: drop leading and trailing whitespace. -/
def pyStrip (s : String) : String :=
  String.mk (((s.data.dropWhile isPyWhitespace).reverse.dropWhile isPyWhitespace).reverse)

/-- Python truthiness of a `row.get(key)` result: `None` and the empty
string are falsy, every other string is truthy. -/
def truthy : Option String → Bool
  | none => false
  | some s => !(s == "")

/-- Python `str.startswith(t)`. -/
def pyStartswith (s t : String) : Bool :=
  t.data.isPrefixOf s.data

/-- A row mapping as built by `dict(zip(keys, values))`: an association
list from field names to string values. -/
abbrev Row := List (String × String)

/-- Python `row.get(key)`: `None` when the key is absent. -/
def Row.get (row : Row) (key : String) : Option String :=
  List.lookup key row

/-- Fixed key list used by `import_csv_prices` (lines 117-118) and
`import_prices` (lines 151-152). -/
def priceKeys : List String :=
  ["code", "status", "title", "size", "age", "proof", "per_case",
   "price", "price_effective_date"]

/-- Line 129: `dict(zip(keys, values))` — keys beyond the length of
`values` are simply absent from the mapping. -/
def rowFromValues (values : List String) : Row :=
  priceKeys.zip values

/-- Maximal digit prefix of a character list, and the rest. -/
def digitSpan (cs : List Char) : List Char × List Char :=
  (cs.takeWhile Char.isDigit, cs.dropWhile Char.isDigit)

/-- Numeric value of a list of decimal digit characters. -/
def digitsToNat (ds : List Char) : Nat :=
  ds.foldl (fun acc c => 10 * acc + (c.toNat - '0'.toNat)) 0

/-- Parse a decimal float literal (optional sign, digits with an optional
fractional part, optional exponent, surrounding whitespace) and truncate
toward zero; `none` when the string is not a float literal.  Binary float
rounding is idealized as exact decimal arithmetic, and `inf`/`nan`
literals are not modelled. -/
def pyFloatTrunc (s : String) : Option Int :=
  let cs0 := (pyStrip s).data
  let signRest : Int × List Char :=
    match cs0 with
    | '+' :: rest => (1, rest)
    | '-' :: rest => (-1, rest)
    | _ => (1, cs0)
  let sign := signRest.1
  let (ip, cs1) := digitSpan signRest.2
  let fracRest : List Char × List Char :=
    match cs1 with
    | '.' :: rest => digitSpan rest
    | _ => ([], cs1)
  let fp := fracRest.1
  let expVal : Option Int :=
    match fracRest.2 with
    | [] => some 0
    | 'e' :: rest =>
      let esignRest : Int × List Char :=
        match rest with
        | '+' :: r => (1, r)
        | '-' :: r => (-1, r)
        | _ => (1, rest)
      let (eds, tail) := digitSpan esignRest.2
      if eds.isEmpty || !tail.isEmpty then none
      else some (esignRest.1 * (digitsToNat eds : Int))
    | 'E' :: rest =>
      let esignRest : Int × List Char :=
        match rest with
        | '+' :: r => (1, r)
        | '-' :: r => (-1, r)
        | _ => (1, rest)
      let (eds, tail) := digitSpan esignRest.2
      if eds.isEmpty || !tail.isEmpty then none
      else some (esignRest.1 * (digitsToNat eds : Int))
    | _ => none
  match expVal with
  | none => none
  | some e =>
    if ip.isEmpty && fp.isEmpty then none
    else
      let n : Nat := digitsToNat (ip ++ fp)
      let p : Int := e - fp.length
      if 0 ≤ p then some (sign * (n : Int) * (10 : Int) ^ p.toNat)
      else some (sign * ((n / 10 ^ (-p).toNat : Nat) : Int))

/-- Model of Python `int(float(s))`: the truncated parse when `s` is a
float literal, a ValueError otherwise. -/
def pyIntFloat (s : String) : Except PyExn Int :=
  match pyFloatTrunc s with
  | none => .error .valueError
  | some v => .ok v

/-- Gregorian leap year. -/
def isLeapYear (y : Int) : Bool :=
  y % 4 == 0 && (y % 100 != 0 || y % 400 == 0)

/-- Days in a month. -/
def daysInMonth (y : Int) (m : Nat) : Nat :=
  if m == 2 then (if isLeapYear y then 29 else 28)
  else if m == 4 || m == 6 || m == 9 || m == 11 then 30
  else 31

/-- Constructor `datetime.date(y, m, d)`: raises ValueError when a
component is out of range. -/
def pyDate (y m d : Int) : Except PyExn Date :=
  if 1 ≤ y ∧ y ≤ 9999 ∧ 1 ≤ m ∧ m ≤ 12 ∧ 1 ≤ d ∧
      d ≤ (daysInMonth y m.toNat : Int) then
    .ok ⟨y, m.toNat, d.toNat⟩
  else .error .valueError

/-- Lines 86-87: `datetime.datetime.strptime(s, '%m/%d/%Y')`, kept as its
date part.  Month and day accept one or two digits, the year up to four;
any mismatch or out-of-range component raises ValueError. -/
def strptimeMDY (s : String) : Except PyExn Date :=
  let (mds, r1) := digitSpan s.data
  match r1 with
  | '/' :: r2 =>
    let (dds, r3) := digitSpan r2
    match r3 with
    | '/' :: r4 =>
      let (yds, r5) := digitSpan r4
      if mds.length == 0 || 2 < mds.length || dds.length == 0 || 2 < dds.length
          || yds.length == 0 || 4 < yds.length || !r5.isEmpty then
        .error .valueError
      else
        pyDate (digitsToNat yds) (digitsToNat mds) (digitsToNat dds)
    | _ => .error .valueError
  | _ => .error .valueError

/-- Lines 91-99: `today.replace(month=today.month+1, day=1)` with the
December rollover in the `except ValueError` handler.  If the replace
fails with a month other than 12, `next_month` is never bound and line 99
raises an unbound-local error. -/
def nextMonthDate (today : Date) : Except PyExn Date :=
  if today.month + 1 ≤ 12 then .ok ⟨today.year, today.month + 1, 1⟩
  else if today.month = 12 then .ok ⟨today.year + 1, 1, 1⟩
  else .error .unboundLocalError

/-- Line 88 condition: `row.get('year') and row.get('month')`. -/
def yearMonthPresent (row : Row) : Bool :=
  truthy (row.get "year") && truthy (row.get "month")

/-- Lines 85-99: resolve the effective date of the new price record. -/
def resolveEffectiveDate (today : Date) (row : Row) : Except PyExn Date :=
  if truthy (row.get "price_effective_date") then
    strptimeMDY ((row.get "price_effective_date").getD "")
  else if yearMonthPresent row then
    match pyIntFloat ((row.get "year").getD "") with
    | .error e => .error e
    | .ok y =>
      match pyIntFloat ((row.get "month").getD "") with
      | .error e => .error e
      | .ok m => pyDate y m 1
  else
    nextMonthDate today

/-- One attempt of the regex `(\d+) (YRS?|MOS?)` anchored at the head of
`cs`, returning (group 1, group 2) on success.  Backtracking inside
`\d+` can never help: a shorter digit run is followed by a digit, not
the required space, so the maximal-run attempt is complete. -/
def matchAgeAt (cs : List Char) : Option (String × String) :=
  if (cs.takeWhile Char.isDigit).isEmpty then none
  else
    match cs.dropWhile Char.isDigit with
    | ' ' :: 'Y' :: 'R' :: 'S' :: _ => some (String.mk (cs.takeWhile Char.isDigit), "YRS")
    | ' ' :: 'Y' :: 'R' :: _ => some (String.mk (cs.takeWhile Char.isDigit), "YR")
    | ' ' :: 'M' :: 'O' :: 'S' :: _ => some (String.mk (cs.takeWhile Char.isDigit), "MOS")
    | ' ' :: 'M' :: 'O' :: _ => some (String.mk (cs.takeWhile Char.isDigit), "MO")
    | _ => none

/-- Line 73: `re.search('(\d+) (YRS?|MOS?)', s)` — leftmost match. -/
def searchAge : List Char → Option (String × String)
  | [] => none
  | c :: cs =>
    match matchAgeAt (c :: cs) with
    | some r => some r
    | none => searchAge cs

/-- Lines 73-77: parse the age field.  When the search fails, `m` is
`None` and `m.group(2)` raises AttributeError.  Python 2 `/` on ints is
floor division, and `int(float(g))` on a digit-string group is its
numeric value. -/
def parseAge (s : String) : Except PyExn (Option AgeVal) :=
  match searchAge s.data with
  | none => .error .attributeError
  | some (g1, g2) =>
    if pyStartswith g2 "MO" then .ok (some (AgeVal.ofNat (digitsToNat g1.data / 12)))
    else if pyStartswith g2 "YR" then .ok (some (AgeVal.ofStr g1))
    else .ok none

/-- Characters kept by the substitution on line 104: the class complement
of `[^0-9\.]`, i.e. decimal digits and the dot. -/
def priceCharKept (c : Char) : Bool :=
  c.isDigit || c == '.'

/-- Line 104: `re.sub('[^0-9\.]', '', s)` scanning left to right, deleting
every character the class matches. -/
def reSubPriceChars : List Char → List Char
  | [] => []
  | c :: cs => if priceCharKept c then c :: reSubPriceChars cs else reSubPriceChars cs

/-- Price-amount normalization on a string. -/
def reSubPrice (s : String) : String :=
  String.mk (reSubPriceChars s.data)

/-- Line 104 applied to `row.get('price')`: `re.sub` on `None` raises
TypeError. -/
def reSubPriceOpt : Option String → Except PyExn String
  | none => .error .typeError
  | some s => .ok (reSubPrice s)

/-- Line 56: `Product.objects.get_or_create(code=row.get('code'))` — find
the record with this code, or create a fresh one; more than one match
raises MultipleObjectsReturned. -/
def getOrCreate (db : DB) (code : Option String) :
    Except PyExn (Product × Bool × DB) :=
  match db.products.filter (fun p => p.code == code) with
  | [] =>
    let p : Product := ⟨code, none, none, none, none, none, none⟩
    .ok (p, true, ⟨db.products ++ [p], db.prices⟩)
  | [p] => .ok (p, false, db)
  | _ => .error .multipleObjectsReturned

/-- Line 80: `product.save()` — persistence is keyed by the unique
product code. -/
def saveProduct (db : DB) (p : Product) : DB :=
  ⟨db.products.map (fun q => if q.code == p.code then p else q), db.prices⟩

/-- Modelled from the spec: the `ProductPrice` model and its uniqueness
constraint live in `olcc/models.py`, which is not among the sources here.
Per the spec, the combination (product, effective_date) must be unique,
and a duplicate insert raises an integrity error. -/
def createProductPrice (db : DB) (amount : String) (d : Date)
    (code : Option String) : Except PyExn DB :=
  if db.prices.any (fun pp => pp.productCode == code && pp.effective_date == d) then
    .error .integrityError
  else
    .ok ⟨db.products, db.prices ++ [⟨amount, d, code⟩]⟩

/-- Lines 101-109: normalize the price and create the price record inside
`try/except IntegrityError: pass` — an integrity error is swallowed, any
other exception propagates. -/
def createPriceSwallow (db : DB) (rawPrice : Option String) (d : Date)
    (code : Option String) : Except PyExn DB :=
  match reSubPriceOpt rawPrice with
  | .error e => .error e
  | .ok price =>
    match createProductPrice db price d code with
    | .error .integrityError => .ok db
    | r => r

/-- Line 63-64: conditional `status` update. -/
def applyStatus (p : Product) (row : Row) : Product :=
  if truthy (row.get "status") then { p with status := row.get "status" } else p

/-- Lines 65-66: conditional `size` update. -/
def applySize (p : Product) (row : Row) : Product :=
  if truthy (row.get "size") then { p with size := row.get "size" } else p

/-- Lines 69-70: conditional `proof` update. -/
def applyProof (p : Product) (row : Row) : Product :=
  if truthy (row.get "proof") then { p with proof := row.get "proof" } else p

/-- Lines 67-68: conditional `per_case` update. -/
def applyPerCase (p : Product) (row : Row) : Except PyExn Product :=
  if truthy (row.get "per_case") then
    match pyIntFloat ((row.get "per_case").getD "") with
    | .error e => .error e
    | .ok n => .ok { p with bottles_per_case := some n }
  else .ok p

/-- Lines 71-77: conditional `age` update. -/
def applyAge (p : Product) (row : Row) : Except PyExn Product :=
  if truthy (row.get "age") then
    match parseAge ((row.get "age").getD "") with
    | .error e => .error e
    | .ok (some a) => .ok { p with age := some a }
    | .ok none => .ok p
  else .ok p

/-- Lines 62-77: merge the updatable fields of the row into the product,
in source order (status, size, per_case, proof, age). -/
def updateProductFields (p : Product) (row : Row) : Except PyExn Product :=
  match applyPerCase (applySize (applyStatus p row) row) row with
  | .error e => .error e
  | .ok p3 => applyAge (applyProof p3 row) row

/-- Lines 42-111: `Command.product_from_row`.  `valid` stands for
`Product.is_code_valid` (defined in `olcc/models.py`, outside these
sources; the spec describes it only as a side-effect-free predicate on
the raw code, so it is kept abstract).  `today` is `datetime.date.today()`.
The transaction wrapper means a caller observing `.error` keeps the
original state. -/
def product_from_row (valid : Option String → Bool) (today : Date)
    (db : DB) (row : Row) : Except PyExn (Option Product × Bool × DB) :=
  if valid (row.get "code") then
    match getOrCreate db (row.get "code") with
    | .error e => .error e
    | .ok (p0, created, db1) =>
      match updateProductFields
          (if created then { p0 with title := row.get "title" } else p0) row with
      | .error e => .error e
      | .ok p2 =>
        match resolveEffectiveDate today row with
        | .error e => .error e
        | .ok priceDate =>
          match createPriceSwallow (saveProduct db1 p2) (row.get "price")
              priceDate p2.code with
          | .error e => .error e
          | .ok db3 => .ok (some p2, created, db3)
  else
    .ok (none, false, db)

/-- Lines 113-141: `Command.import_csv_prices`.  Empty rows are skipped,
values are stripped and zipped against `priceKeys`, `MultipleObjectsReturned`
is caught per row (with rollback of that row's transaction), and any other
exception propagates and aborts the loop.  Returns the final state and the
count of rows that yielded a product. -/
def importCsvPrices (valid : Option String → Bool) (today : Date) :
    DB → Nat → List (List String) → Except PyExn (DB × Nat)
  | db, count, [] => .ok (db, count)
  | db, count, r :: rest =>
    if r.length = 0 then importCsvPrices valid today db count rest
    else
      match product_from_row valid today db (rowFromValues (r.map pyStrip)) with
      | .ok (some _, _, db1) => importCsvPrices valid today db1 (count + 1) rest
      | .ok (none, _, db1) => importCsvPrices valid today db1 count rest
      | .error .multipleObjectsReturned => importCsvPrices valid today db count rest
      | .error e => .error e

/-- optparse semantics of `action='store_true'`: the destination holds the
default unless the flag appears on the command line, in which case it is
set to True. -/
def storeTrue (defaultValue : Bool) (flagPresent : Bool) : Bool :=
  if flagPresent then true else defaultValue

/-- Lines 30-31: `make_option('--geocode', action='store_true',
dest='geocode', default=True)`. -/
def geocodeOptionValue (flagPresent : Bool) : Bool :=
  storeTrue true flagPresent

/-- Lines 190-208 of `import_stores`: a geocoding call happens for a row
exactly when the first column is numeric and `self.geocode` is set. -/
def storeRowGeocodes (geocode : Bool) (firstColNumeric : Bool) : Bool :=
  firstColNumeric && geocode

/-! Section: Helper lemmas -/

theorem lookup_zip_eq_none_of_not_mem (k : String) :
    ∀ (ks vs : List String), k ∉ ks → List.lookup k (ks.zip vs) = none := by
  intro ks
  induction ks with
  | nil => intro vs _; rfl
  | cons a t ih =>
    intro vs h
    cases vs with
    | nil => rfl
    | cons v vt =>
      have hka : ¬(k = a) := fun hk => h (hk ▸ List.mem_cons_self a t)
      have hkt : k ∉ t := fun hk => h (List.mem_cons_of_mem a hk)
      have hbeq : (k == a) = false := beq_eq_false_iff_ne.mpr hka
      simp only [List.zip_cons_cons, List.lookup, hbeq]
      exact ih vt hkt

theorem reSubPriceChars_eq_filter :
    ∀ cs : List Char, reSubPriceChars cs = cs.filter priceCharKept := by
  intro cs
  induction cs with
  | nil => rfl
  | cons c t ih =>
    by_cases h : priceCharKept c = true
    · rw [reSubPriceChars, if_pos h, List.filter_cons_of_pos h, ih]
    · rw [reSubPriceChars, if_neg h, List.filter_cons_of_neg (by simpa using h), ih]

/-! Section: C1 -/

/-- C1: for every row whose code fails the validity predicate,
`product_from_row` returns (no product, not created) and leaves the
database (both products and prices) unchanged: the row is skipped rather
than raising an error. -/
theorem product_from_row_invalid_code_noop
    (valid : Option String → Bool) (today : Date) (db : DB) (row : Row)
    (h : valid (row.get "code") = false) :
    product_from_row valid today db row = .ok (none, false, db) := by
  unfold product_from_row
  rw [h]
  rfl

/-- Witness for C1 at a concrete row, state and predicate. -/
theorem product_from_row_invalid_code_noop_witness :
    ((fun c => decide (c = some "OK")) (Option.some "9999") = false) ∧
    product_from_row (fun c => decide (c = some "OK")) ⟨2012, 5, 15⟩ ⟨[], []⟩
        (rowFromValues ["9999", "A", "T", "S", "", "", "", "1.00", ""]) =
      .ok (none, false, ⟨[], []⟩) :=
  ⟨by decide,
   product_from_row_invalid_code_noop (fun c => decide (c = some "OK"))
     ⟨2012, 5, 15⟩ ⟨[], []⟩
     (rowFromValues ["9999", "A", "T", "S", "", "", "", "1.00", ""]) (by decide)⟩

/-! Section: C6 -/

/-- C6: the price amount parser keeps exactly the digit and dot characters
of the raw price string, in order, and performs no validation: the spec's
example normalizes as stated, and an input with several dots is passed
through ill-formed, silently. -/
theorem reSubPrice_keeps_digits_and_dots :
    (∀ s : String, (reSubPrice s).data = s.data.filter priceCharKept) ∧
    reSubPrice "$12,34.56 " = "1234.56" ∧
    reSubPrice "1.2.3.4" = "1.2.3.4" := by
  refine ⟨fun s => reSubPriceChars_eq_filter s.data, by decide, by decide⟩

/-! Section: C8 -/

/-- C8 counterexample: the claim asserts there is an invocation under
which store rows are imported with no geocoding call.  The `--geocode`
option is `store_true` with default `True`, so on both possible command
lines (flag absent and flag present) the geocode setting is `True` and a
numeric-keyed store row is geocoded. -/
theorem geocode_flag_cannot_disable :
    geocodeOptionValue false = true ∧ geocodeOptionValue true = true ∧
    storeRowGeocodes (geocodeOptionValue false) true = true ∧
    storeRowGeocodes (geocodeOptionValue true) true = true := by
  decide

/-- C8 amended: `--geocode` can only enable geocoding, never disable it:
under every invocation the geocode setting resolves to `True`, and a
store row triggers a geocoding call exactly when its first column is
numeric, regardless of the flag. -/
theorem geocode_always_enabled (flagPresent firstColNumeric : Bool) :
    geocodeOptionValue flagPresent = true ∧
    storeRowGeocodes (geocodeOptionValue flagPresent) firstColNumeric = firstColNumeric := by
  cases flagPresent <;> cases firstColNumeric <;> exact ⟨rfl, rfl⟩

/-! Section: C9 -/

/-- C9: a row mapping produced by the price-import normalizer (zipping
the fixed key list against the row values) never contains the keys
`year` or `month`, so the `(year, month, 1)` branch condition of the
effective-date resolution is false for every such row. -/
theorem rowFromValues_no_year_month (values : List String) :
    (rowFromValues values).get "year" = none ∧
    (rowFromValues values).get "month" = none ∧
    yearMonthPresent (rowFromValues values) = false ∧
    (∀ today : Date,
      resolveEffectiveDate today (rowFromValues values) =
        if truthy ((rowFromValues values).get "price_effective_date") then
          strptimeMDY (((rowFromValues values).get "price_effective_date").getD "")
        else nextMonthDate today) := by
  have hy : (rowFromValues values).get "year" = none :=
    lookup_zip_eq_none_of_not_mem "year" priceKeys values (by decide)
  have hm : (rowFromValues values).get "month" = none :=
    lookup_zip_eq_none_of_not_mem "month" priceKeys values (by decide)
  have hym : yearMonthPresent (rowFromValues values) = false := by
    unfold yearMonthPresent
    rw [hy]
    rfl
  refine ⟨hy, hm, hym, fun today => ?_⟩
  unfold resolveEffectiveDate
  rw [hym]
  by_cases hp : truthy ((rowFromValues values).get "price_effective_date") = true
  · rw [if_pos hp, if_pos hp]
  · rw [if_neg hp, if_neg hp]
    rfl

/-! Section: C3 -/

theorem matchAgeAt_unit (cs : List Char) (g1 g2 : String)
    (h : matchAgeAt cs = some (g1, g2)) :
    g2 = "YRS" ∨ g2 = "YR" ∨ g2 = "MOS" ∨ g2 = "MO" := by
  unfold matchAgeAt at h
  split at h
  · exact Option.noConfusion h
  · split at h <;>
      first
        | exact Option.noConfusion h
        | (simp only [Option.some.injEq, Prod.mk.injEq] at h; tauto)

theorem searchAge_unit : ∀ (cs : List Char) (g1 g2 : String),
    searchAge cs = some (g1, g2) → g2 = "YRS" ∨ g2 = "YR" ∨ g2 = "MOS" ∨ g2 = "MO" := by
  intro cs
  induction cs with
  | nil => intro g1 g2 h; exact absurd h (by simp [searchAge])
  | cons c t ih =>
    intro g1 g2 h
    rw [searchAge] at h
    rcases hm : matchAgeAt (c :: t) with _ | r
    · rw [hm] at h
      exact ih g1 g2 h
    · rw [hm] at h
      simp only [Option.some.injEq] at h
      exact matchAgeAt_unit (c :: t) g1 g2 (h ▸ hm)

/-- C3: whenever the age regex matches with groups (number, unit), a unit
starting with MO yields the matched number divided by 12 with integer
truncation, and a unit starting with YR yields the raw matched number
string, unconverted. -/
theorem parseAge_mo_yr (s g1 g2 : String) (h : searchAge s.data = some (g1, g2)) :
    (pyStartswith g2 "MO" = true →
      parseAge s = .ok (some (AgeVal.ofNat (digitsToNat g1.data / 12)))) ∧
    (pyStartswith g2 "YR" = true →
      parseAge s = .ok (some (AgeVal.ofStr g1))) := by
  have hps : parseAge s =
      (if pyStartswith g2 "MO" = true then
        .ok (some (AgeVal.ofNat (digitsToNat g1.data / 12)))
      else if pyStartswith g2 "YR" = true then .ok (some (AgeVal.ofStr g1))
      else .ok none) := by
    unfold parseAge
    rw [h]
  constructor
  · intro hmo
    rw [hps, if_pos hmo]
  · intro hyr
    have hnotmo : pyStartswith g2 "MO" = false := by
      rcases searchAge_unit s.data g1 g2 h with h2 | h2 | h2 | h2 <;> subst h2 <;>
        first
          | rfl
          | exact absurd hyr (by decide)
    rw [hps, if_neg (by simp [hnotmo]), if_pos hyr]

/-- Witness for C3: "18 MOS" parses to the integer 1 (18/12 truncated)
and "12 YRS" parses to the string "12". -/
theorem parseAge_mo_yr_witness :
    searchAge "18 MOS".data = some ("18", "MOS") ∧
    parseAge "18 MOS" = .ok (some (AgeVal.ofNat 1)) ∧
    parseAge "12 YRS" = .ok (some (AgeVal.ofStr "12")) := by
  refine ⟨by decide, ?_, ?_⟩
  · have h := (parseAge_mo_yr "18 MOS" "18" "MOS" (by decide)).1 (by decide)
    have h12 : digitsToNat "18".data / 12 = 1 := by decide
    rw [h12] at h
    exact h
  · exact (parseAge_mo_yr "12 YRS" "12" "YRS" (by decide)).2 (by decide)

/-! Section: C5 -/

/-- C5: with no effective-date string and no year/month fields, the
resolved effective date is the first day of the month after `today`;
when `today` is in December it is January 1 of the next year. -/
theorem resolveEffectiveDate_next_month (today : Date) (row : Row)
    (hped : truthy (row.get "price_effective_date") = false)
    (hyear : truthy (row.get "year") = false)
    (hmonth : truthy (row.get "month") = false)
    (hm1 : 1 ≤ today.month) (hm2 : today.month ≤ 12) :
    resolveEffectiveDate today row =
      .ok (if today.month = 12 then ⟨today.year + 1, 1, 1⟩
           else ⟨today.year, today.month + 1, 1⟩) := by
  have hym : yearMonthPresent row = false := by
    unfold yearMonthPresent
    rw [hyear]
    rfl
  unfold resolveEffectiveDate
  simp only [hped, hym, Bool.false_eq_true, if_false]
  unfold nextMonthDate
  by_cases h12 : today.month = 12
  · rw [if_neg (by omega), if_pos h12, if_pos h12]
  · rw [if_pos (by omega), if_neg h12]

/-- Witness for C5 at a December date: the effective date rolls to
January 1 of the next year. -/
theorem resolveEffectiveDate_next_month_witness :
    resolveEffectiveDate ⟨2012, 12, 31⟩ (rowFromValues []) = .ok ⟨2013, 1, 1⟩ := by
  have h := resolveEffectiveDate_next_month ⟨2012, 12, 31⟩ (rowFromValues [])
    (by decide) (by decide) (by decide) (by decide) (by decide)
  simpa using h

/-! Section: C7 counterexample -/

/-- C7 counterexample: on a full row whose age field is the non-empty,
non-matching string "XYZ", `product_from_row` raises AttributeError
(`None.group`) instead of skipping the age silently: the claim that no
exception is raised is false at this input. -/
theorem bad_age_not_silent :
    product_from_row (fun _ => true) ⟨2012, 5, 15⟩ ⟨[], []⟩
        (rowFromValues ["7", "A", "T", "S", "XYZ", "", "", "9.99", ""]) =
      .error PyExn.attributeError := by
  decide

/-! Section: C10 counterexample -/

/-- C10 counterexample: a five-column row with a valid code and the
malformed age "NOAGE" is too short to populate `price`, yet
`product_from_row` raises AttributeError from the age parse, not the
TypeError the claim asserts for every such row. -/
theorem short_row_not_type_error :
    ["100", "", "", "", "NOAGE"].length < 8 ∧
    (rowFromValues (["100", "", "", "", "NOAGE"].map pyStrip)).get "price" = none ∧
    product_from_row (fun _ => true) ⟨2012, 5, 15⟩ ⟨[], []⟩
        (rowFromValues (["100", "", "", "", "NOAGE"].map pyStrip)) =
      .error PyExn.attributeError ∧
    product_from_row (fun _ => true) ⟨2012, 5, 15⟩ ⟨[], []⟩
        (rowFromValues (["100", "", "", "", "NOAGE"].map pyStrip)) ≠
      .error PyExn.typeError := by
  decide

/-! Section: Upsert-engine helper lemmas -/

theorem getOrCreate_ok (db : DB) (code : Option String) (p0 : Product)
    (cr : Bool) (db1 : DB)
    (h : getOrCreate db code = .ok (p0, cr, db1)) :
    p0.code = code ∧ db1.prices = db.prices ∧
      db1.products.filter (fun q => q.code == code) = [p0] := by
  unfold getOrCreate at h
  split at h
  case _ heq =>
    simp only [Except.ok.injEq, Prod.mk.injEq] at h
    obtain ⟨hp, _, hdb⟩ := h
    subst hp
    subst hdb
    refine ⟨rfl, rfl, ?_⟩
    simp only [List.filter_append, heq, List.nil_append, List.filter,
      beq_self_eq_true]
  case _ p heq =>
    simp only [Except.ok.injEq, Prod.mk.injEq] at h
    obtain ⟨hp, _, hdb⟩ := h
    have hmem : p ∈ db.products.filter (fun q => q.code == code) := by
      rw [heq]
      exact List.mem_singleton_self p
    have hcode := (List.mem_filter.mp hmem).2
    refine ⟨?_, ?_, ?_⟩
    · rw [← hp]
      exact eq_of_beq hcode
    · rw [← hdb]
    · rw [← hdb, heq, hp]
  case _ => exact Except.noConfusion h

theorem getOrCreate_of_filter_singleton (db : DB) (code : Option String)
    (p : Product) (h : db.products.filter (fun q => q.code == code) = [p]) :
    getOrCreate db code = .ok (p, false, db) := by
  unfold getOrCreate
  rw [h]

theorem getOrCreate_ok_of_count_le_one (db : DB) (code : Option String)
    (h : (db.products.filter (fun q => q.code == code)).length ≤ 1) :
    ∃ p0 cr db1, getOrCreate db code = .ok (p0, cr, db1) := by
  rcases hf : db.products.filter (fun q => q.code == code) with _ | ⟨a, _ | ⟨b, u⟩⟩
  · exact ⟨_, _, _, by unfold getOrCreate; rw [hf]⟩
  · exact ⟨_, _, _, by unfold getOrCreate; rw [hf]⟩
  · rw [hf] at h
    simp at h

theorem filter_map_replace_nil (c : Option String) (p2 : Product)
    (hp2 : p2.code = c) :
    ∀ l : List Product, l.filter (fun q => q.code == c) = [] →
      (l.map (fun q => if q.code == p2.code then p2 else q)).filter
        (fun q => q.code == c) = [] := by
  intro l
  induction l with
  | nil => intro _; rfl
  | cons q t ih =>
    intro h
    rw [List.filter_cons] at h
    by_cases hq : (q.code == c) = true
    · rw [if_pos hq] at h
      exact absurd h (List.cons_ne_nil q _)
    · rw [if_neg hq] at h
      have hq' : (q.code == p2.code) = false := by
        rw [hp2]
        exact Bool.eq_false_iff.mpr hq
      simp only [List.map_cons, hq', Bool.false_eq_true, if_false, List.filter_cons]
      rw [if_neg hq]
      exact ih h

theorem filter_map_replace_singleton (c : Option String) (p0 p2 : Product)
    (hp2 : p2.code = c) :
    ∀ l : List Product, l.filter (fun q => q.code == c) = [p0] →
      (l.map (fun q => if q.code == p2.code then p2 else q)).filter
        (fun q => q.code == c) = [p2] := by
  intro l
  induction l with
  | nil => intro h; exact absurd h (by simp)
  | cons q t ih =>
    intro h
    rw [List.filter_cons] at h
    by_cases hq : (q.code == c) = true
    · rw [if_pos hq] at h
      have hq0 : q = p0 := (List.cons_eq_cons.mp h).1
      have ht : t.filter (fun q => q.code == c) = [] := (List.cons_eq_cons.mp h).2
      have hqp2 : (q.code == p2.code) = true := by
        rw [hp2]
        exact hq
      simp only [List.map_cons, hqp2, if_true, List.filter_cons]
      rw [if_pos (by rw [hp2]; exact beq_self_eq_true c)]
      rw [filter_map_replace_nil c p2 hp2 t ht]
    · rw [if_neg hq] at h
      have hq' : (q.code == p2.code) = false := by
        rw [hp2]
        exact Bool.eq_false_iff.mpr hq
      simp only [List.map_cons, hq', Bool.false_eq_true, if_false, List.filter_cons]
      rw [if_neg hq]
      exact ih h

theorem saveProduct_filter (db : DB) (p2 : Product) (c : Option String)
    (p0 : Product) (hp2 : p2.code = c)
    (h : db.products.filter (fun q => q.code == c) = [p0]) :
    (saveProduct db p2).products.filter (fun q => q.code == c) = [p2] :=
  filter_map_replace_singleton c p0 p2 hp2 db.products h

theorem saveProduct_prices (db : DB) (p2 : Product) :
    (saveProduct db p2).prices = db.prices := rfl

theorem eq_of_filter_singleton (l : List Product) (c : Option String)
    (p : Product) (h : l.filter (fun q => q.code == c) = [p]) :
    ∀ q ∈ l, q.code = c → q = p := by
  intro q hq hqc
  have hmem : q ∈ l.filter (fun q => q.code == c) :=
    List.mem_filter.mpr ⟨hq, by rw [hqc]; exact beq_self_eq_true c⟩
  rw [h] at hmem
  exact List.eq_of_mem_singleton hmem

theorem applyStatus_title_code (p : Product) (row : Row) :
    (applyStatus p row).title = p.title ∧ (applyStatus p row).code = p.code := by
  unfold applyStatus
  split <;> exact ⟨rfl, rfl⟩

theorem applySize_title_code (p : Product) (row : Row) :
    (applySize p row).title = p.title ∧ (applySize p row).code = p.code := by
  unfold applySize
  split <;> exact ⟨rfl, rfl⟩

theorem applyProof_title_code (p : Product) (row : Row) :
    (applyProof p row).title = p.title ∧ (applyProof p row).code = p.code := by
  unfold applyProof
  split <;> exact ⟨rfl, rfl⟩

theorem applyPerCase_ok (p q : Product) (row : Row)
    (h : applyPerCase p row = .ok q) : q.title = p.title ∧ q.code = p.code := by
  unfold applyPerCase at h
  split at h
  · split at h
    · exact Except.noConfusion h
    · simp only [Except.ok.injEq] at h
      rw [← h]
      exact ⟨rfl, rfl⟩
  · simp only [Except.ok.injEq] at h
    rw [← h]
    exact ⟨rfl, rfl⟩

theorem applyAge_ok (p q : Product) (row : Row)
    (h : applyAge p row = .ok q) : q.title = p.title ∧ q.code = p.code := by
  unfold applyAge at h
  split at h
  · split at h
    · exact Except.noConfusion h
    · simp only [Except.ok.injEq] at h
      rw [← h]
      exact ⟨rfl, rfl⟩
    · simp only [Except.ok.injEq] at h
      rw [← h]
      exact ⟨rfl, rfl⟩
  · simp only [Except.ok.injEq] at h
    rw [← h]
    exact ⟨rfl, rfl⟩

theorem updateProductFields_ok (p q : Product) (row : Row)
    (h : updateProductFields p row = .ok q) :
    q.title = p.title ∧ q.code = p.code := by
  unfold updateProductFields at h
  split at h
  · exact Except.noConfusion h
  case _ p3 hpc =>
    have h1 := applyStatus_title_code p row
    have h2 := applySize_title_code (applyStatus p row) row
    have h3 := applyPerCase_ok (applySize (applyStatus p row) row) p3 row hpc
    have h4 := applyProof_title_code p3 row
    have h5 := applyAge_ok (applyProof p3 row) q row h
    constructor
    · rw [h5.1, h4.1, h3.1, h2.1, h1.1]
    · rw [h5.2, h4.2, h3.2, h2.2, h1.2]

theorem applyPerCase_ok_transfer (p p' q : Product) (row : Row)
    (h : applyPerCase p row = .ok q) :
    ∃ q', applyPerCase p' row = .ok q' := by
  unfold applyPerCase at h ⊢
  by_cases hc : truthy (row.get "per_case") = true
  · rw [if_pos hc] at h ⊢
    rcases hn : pyIntFloat ((row.get "per_case").getD "") with e | n
    · rw [hn] at h
      exact Except.noConfusion h
    · exact ⟨_, rfl⟩
  · rw [if_neg hc]
    exact ⟨_, rfl⟩

theorem applyAge_ok_transfer (p p' q : Product) (row : Row)
    (h : applyAge p row = .ok q) :
    ∃ q', applyAge p' row = .ok q' := by
  unfold applyAge at h ⊢
  by_cases hc : truthy (row.get "age") = true
  · rw [if_pos hc] at h ⊢
    rcases hn : parseAge ((row.get "age").getD "") with e | a
    · rw [hn] at h
      exact Except.noConfusion h
    · cases a <;> exact ⟨_, rfl⟩
  · rw [if_neg hc]
    exact ⟨_, rfl⟩

theorem updateProductFields_ok_transfer (p p' q : Product) (row : Row)
    (h : updateProductFields p row = .ok q) :
    ∃ q', updateProductFields p' row = .ok q' ∧ q'.code = p'.code := by
  unfold updateProductFields at h
  split at h
  · exact Except.noConfusion h
  case _ p3 hpc =>
    obtain ⟨p3', hpc'⟩ :=
      applyPerCase_ok_transfer (applySize (applyStatus p row) row)
        (applySize (applyStatus p' row) row) p3 row hpc
    obtain ⟨q', hq'⟩ := applyAge_ok_transfer (applyProof p3 row) (applyProof p3' row) q row h
    refine ⟨q', ?_, ?_⟩
    · unfold updateProductFields
      rw [hpc']
      exact hq'
    · have hfull : updateProductFields p' row = .ok q' := by
        unfold updateProductFields
        rw [hpc']
        exact hq'
      exact (updateProductFields_ok p' q' row hfull).2

theorem createPriceSwallow_ok (db db' : DB) (raw : Option String) (d : Date)
    (code : Option String) (h : createPriceSwallow db raw d code = .ok db') :
    db'.products = db.products ∧ (∃ s, reSubPriceOpt raw = .ok s) ∧
      db'.prices.any (fun pp => pp.productCode == code && pp.effective_date == d)
        = true := by
  unfold createPriceSwallow at h
  rcases hr : reSubPriceOpt raw with e | s
  · rw [hr] at h
    exact Except.noConfusion h
  · rw [hr] at h
    by_cases hdup :
        db.prices.any (fun pp => pp.productCode == code && pp.effective_date == d)
          = true
    · simp only [createProductPrice] at h
      rw [if_pos hdup] at h
      simp only [Except.ok.injEq] at h
      rw [← h]
      exact ⟨rfl, ⟨s, rfl⟩, hdup⟩
    · simp only [createProductPrice] at h
      rw [if_neg hdup] at h
      simp only [Except.ok.injEq] at h
      rw [← h]
      refine ⟨rfl, ⟨s, rfl⟩, ?_⟩
      simp [List.any_append]

theorem createPriceSwallow_dup (db : DB) (raw : Option String) (s : String)
    (d : Date) (code : Option String)
    (hs : reSubPriceOpt raw = .ok s)
    (hdup : db.prices.any (fun pp => pp.productCode == code && pp.effective_date == d)
      = true) :
    createPriceSwallow db raw d code = .ok db := by
  unfold createPriceSwallow
  rw [hs]
  simp only [createProductPrice]
  rw [if_pos hdup]


/-! Section: C2 -/

/-- C2: the product title is assigned only at creation.  When the
database already holds exactly one product with the row's code, a
completed `product_from_row` — whatever (possibly different) title value
the row carries — leaves the stored title of every product with that
code unchanged. -/
theorem product_from_row_title_write_once
    (valid : Option String → Bool) (today : Date) (db : DB) (row : Row)
    (p : Product) (res : Option Product × Bool × DB)
    (hp : db.products.filter (fun q => q.code == row.get "code") = [p])
    (hok : product_from_row valid today db row = .ok res) :
    ∀ q ∈ res.2.2.products, q.code = row.get "code" → q.title = p.title := by
  have hpcode : p.code = row.get "code" := by
    have hmem : p ∈ db.products.filter (fun q => q.code == row.get "code") := by
      rw [hp]
      exact List.mem_singleton_self p
    exact eq_of_beq (List.mem_filter.mp hmem).2
  by_cases hv : valid (row.get "code") = true
  case neg =>
    rw [product_from_row_invalid_code_noop valid today db row
      (Bool.eq_false_iff.mpr hv)] at hok
    simp only [Except.ok.injEq] at hok
    rw [← hok]
    intro q hq hqc
    rw [eq_of_filter_singleton db.products (row.get "code") p hp q hq hqc]
  case pos =>
    rw [product_from_row, if_pos hv] at hok
    split at hok
    case _ e heq =>
      rw [getOrCreate_of_filter_singleton db (row.get "code") p hp] at heq
      exact Except.noConfusion heq
    case _ p0 created db1 heq =>
      rw [getOrCreate_of_filter_singleton db (row.get "code") p hp] at heq
      simp only [Except.ok.injEq, Prod.mk.injEq] at heq
      obtain ⟨hp0, hcr, hdb1⟩ := heq
      subst hp0
      subst hcr
      subst hdb1
      simp only [Bool.false_eq_true, if_false] at hok
      split at hok
      case _ e heq2 => exact Except.noConfusion hok
      case _ p2 heq2 =>
        split at hok
        case _ e heq3 => exact Except.noConfusion hok
        case _ dte heq3 =>
          split at hok
          case _ e heq4 => exact Except.noConfusion hok
          case _ db3 heq4 =>
            simp only [Except.ok.injEq] at hok
            rw [← hok]
            intro q hq hqc
            obtain ⟨ht2, hc2⟩ := updateProductFields_ok p p2 row heq2
            have hsave := saveProduct_filter db p2 (row.get "code") p
              (by rw [hc2, hpcode]) hp
            have hprod3 := (createPriceSwallow_ok _ _ _ _ _ heq4).1
            have hq2 : q ∈ (saveProduct db p2).products := by
              rw [← hprod3]
              exact hq
            rw [eq_of_filter_singleton _ _ _ hsave q hq2 hqc, ht2]

/-- Witness for C2: a second import of code "7" with the different title
"NEW" leaves the stored title "OLD" in place. -/
theorem product_from_row_title_write_once_witness :
    ((DB.mk [Product.mk (some "7") (some "OLD") none none none none none]
        []).products.filter
      (fun q => q.code ==
        (rowFromValues ["7", "", "NEW", "", "", "", "", "1.00", ""]).get "code")
      = [Product.mk (some "7") (some "OLD") none none none none none]) ∧
    ∀ q ∈ (DB.mk [Product.mk (some "7") (some "OLD") none none none none none]
        [ProductPrice.mk "1.00" (Date.mk 2012 6 1) (some "7")]).products,
      q.code = (rowFromValues ["7", "", "NEW", "", "", "", "", "1.00", ""]).get "code" →
      q.title = some "OLD" := by
  constructor
  · decide
  · exact product_from_row_title_write_once (fun _ => true) ⟨2012, 5, 15⟩
      (DB.mk [Product.mk (some "7") (some "OLD") none none none none none] [])
      (rowFromValues ["7", "", "NEW", "", "", "", "", "1.00", ""])
      (Product.mk (some "7") (some "OLD") none none none none none)
      (some (Product.mk (some "7") (some "OLD") none none none none none), false,
        DB.mk [Product.mk (some "7") (some "OLD") none none none none none]
          [ProductPrice.mk "1.00" (Date.mk 2012 6 1) (some "7")])
      (by decide) (by decide)

/-! Section: C4 -/

theorem product_from_row_eval (valid : Option String → Bool) (today : Date)
    (db : DB) (row : Row) (p0 : Product) (created : Bool) (db1 : DB)
    (p2 : Product) (dte : Date) (db3 : DB)
    (hv : valid (row.get "code") = true)
    (hg : getOrCreate db (row.get "code") = .ok (p0, created, db1))
    (hu : updateProductFields
      (if created then { p0 with title := row.get "title" } else p0) row = .ok p2)
    (hr : resolveEffectiveDate today row = .ok dte)
    (hc : createPriceSwallow (saveProduct db1 p2) (row.get "price") dte p2.code
      = .ok db3) :
    product_from_row valid today db row = .ok (some p2, created, db3) := by
  rw [product_from_row, if_pos hv]
  simp only [hg, hu, hr, hc]

/-- C4: importing a row that has just been imported (same product, and
deterministically the same effective date) does not raise and does not
create a second price row: the integrity violation on price creation is
swallowed and the price table is returned exactly as it was. -/
theorem product_from_row_second_import_no_new_price
    (valid : Option String → Bool) (today : Date) (db : DB) (row : Row)
    (res : Option Product × Bool × DB)
    (h1 : product_from_row valid today db row = .ok res) :
    ∃ p2 db2, product_from_row valid today res.2.2 row = .ok (p2, false, db2) ∧
      db2.prices = res.2.2.prices := by
  by_cases hv : valid (row.get "code") = true
  case neg =>
    have hnoop := product_from_row_invalid_code_noop valid today db row
      (Bool.eq_false_iff.mpr hv)
    rw [hnoop] at h1
    simp only [Except.ok.injEq] at h1
    rw [← h1]
    exact ⟨none, db, product_from_row_invalid_code_noop valid today db row
      (Bool.eq_false_iff.mpr hv), rfl⟩
  case pos =>
    rw [product_from_row, if_pos hv] at h1
    split at h1
    case _ e heq => exact Except.noConfusion h1
    case _ p0 created db1 heq =>
      generalize hP : (if created then ({ p0 with title := row.get "title" } : Product)
        else p0) = P at h1
      split at h1
      case _ e heq2 => exact Except.noConfusion h1
      case _ p2 heq2 =>
        split at h1
        case _ e heq3 => exact Except.noConfusion h1
        case _ dte heq3 =>
          split at h1
          case _ e heq4 => exact Except.noConfusion h1
          case _ db3 heq4 =>
            simp only [Except.ok.injEq] at h1
            rw [← h1]
            obtain ⟨hp0code, hprices1, hfilter1⟩ :=
              getOrCreate_ok db (row.get "code") p0 created db1 heq
            obtain ⟨_, hp2code⟩ := updateProductFields_ok P p2 row heq2
            have hp1code : P.code = p0.code := by
              rw [← hP]
              cases created <;> rfl
            have hp2c : p2.code = row.get "code" := by
              rw [hp2code, hp1code, hp0code]
            have hsave := saveProduct_filter db1 p2 (row.get "code") p0 hp2c hfilter1
            obtain ⟨hprod3, ⟨s, hs⟩, hany⟩ :=
              createPriceSwallow_ok _ db3 _ _ _ heq4
            have hfilter3 :
                db3.products.filter (fun q => q.code == row.get "code") = [p2] := by
              rw [hprod3]
              exact hsave
            obtain ⟨q', hq', hq'c⟩ :=
              updateProductFields_ok_transfer _ p2 p2 row heq2
            have hdup : (saveProduct db3 q').prices.any
                (fun pp => pp.productCode == q'.code && pp.effective_date == dte)
                  = true := by
              rw [saveProduct_prices, hq'c]
              exact hany
            have hc2 : createPriceSwallow (saveProduct db3 q') (row.get "price")
                dte q'.code = .ok (saveProduct db3 q') :=
              createPriceSwallow_dup (saveProduct db3 q') (row.get "price") s dte
                q'.code hs hdup
            refine ⟨some q', saveProduct db3 q', ?_, saveProduct_prices db3 q'⟩
            exact product_from_row_eval valid today db3 row p2 false db3 q' dte
              (saveProduct db3 q') hv
              (getOrCreate_of_filter_singleton db3 (row.get "code") p2 hfilter3)
              hq' heq3 hc2

/-- Witness for C4: after a first import of a concrete row into an empty
database, a second import of the same row completes without error,
reports the product as not newly created, and adds no price row. -/
theorem product_from_row_second_import_no_new_price_witness :
    ∃ p2 db2,
      product_from_row (fun _ => true) ⟨2012, 5, 15⟩
        ((some (Product.mk (some "7") (some "T") none none none none none), true,
          DB.mk [Product.mk (some "7") (some "T") none none none none none]
            [ProductPrice.mk "1.00" (Date.mk 2012 6 1) (some "7")]) :
            Option Product × Bool × DB).2.2
        (rowFromValues ["7", "", "T", "", "", "", "", "1.00", ""]) =
        .ok (p2, false, db2) ∧
      db2.prices =
        ((some (Product.mk (some "7") (some "T") none none none none none), true,
          DB.mk [Product.mk (some "7") (some "T") none none none none none]
            [ProductPrice.mk "1.00" (Date.mk 2012 6 1) (some "7")]) :
            Option Product × Bool × DB).2.2.prices :=
  product_from_row_second_import_no_new_price (fun _ => true) ⟨2012, 5, 15⟩
    ⟨[], []⟩ (rowFromValues ["7", "", "T", "", "", "", "", "1.00", ""])
    (some (Product.mk (some "7") (some "T") none none none none none), true,
      DB.mk [Product.mk (some "7") (some "T") none none none none none]
        [ProductPrice.mk "1.00" (Date.mk 2012 6 1) (some "7")])
    (by decide)

/-! Section: Error-shape lemmas -/

theorem pyIntFloat_shape (s : String) :
    pyIntFloat s = .error PyExn.valueError ∨ ∃ n, pyIntFloat s = .ok n := by
  unfold pyIntFloat
  rcases hf : pyFloatTrunc s with _ | v
  · exact Or.inl rfl
  · exact Or.inr ⟨v, rfl⟩

theorem pyIntFloat_error (s : String) (e : PyExn) (h : pyIntFloat s = .error e) :
    e = PyExn.valueError := by
  rcases pyIntFloat_shape s with h2 | ⟨n, h2⟩
  · rw [h2] at h
    simp only [Except.error.injEq] at h
    exact h.symm
  · rw [h2] at h
    exact Except.noConfusion h

theorem parseAge_error (s : String) (e : PyExn) (h : parseAge s = .error e) :
    e = PyExn.attributeError := by
  unfold parseAge at h
  split at h
  · simp only [Except.error.injEq] at h
    exact h.symm
  · split at h
    · exact Except.noConfusion h
    · split at h <;> exact Except.noConfusion h

theorem applyPerCase_error (p : Product) (row : Row) (e : PyExn)
    (h : applyPerCase p row = .error e) : e = PyExn.valueError := by
  unfold applyPerCase at h
  split at h
  · split at h
    case _ e' heq =>
      simp only [Except.error.injEq] at h
      rw [← h]
      exact pyIntFloat_error _ e' heq
    case _ => exact Except.noConfusion h
  · exact Except.noConfusion h

theorem applyAge_error (p : Product) (row : Row) (e : PyExn)
    (h : applyAge p row = .error e) : e = PyExn.attributeError := by
  unfold applyAge at h
  split at h
  · split at h
    case _ e' heq =>
      simp only [Except.error.injEq] at h
      rw [← h]
      exact parseAge_error _ e' heq
    case _ => exact Except.noConfusion h
    case _ => exact Except.noConfusion h
  · exact Except.noConfusion h

theorem updateProductFields_error (p : Product) (row : Row) (e : PyExn)
    (h : updateProductFields p row = .error e) :
    e = PyExn.valueError ∨ e = PyExn.attributeError := by
  unfold updateProductFields at h
  split at h
  case _ e' heq =>
    simp only [Except.error.injEq] at h
    rw [← h]
    exact Or.inl (applyPerCase_error _ _ e' heq)
  case _ p3 heq =>
    exact Or.inr (applyAge_error _ _ e h)

theorem nextMonthDate_error (today : Date) (e : PyExn)
    (h : nextMonthDate today = .error e) : e = PyExn.unboundLocalError := by
  unfold nextMonthDate at h
  split at h
  · exact Except.noConfusion h
  · split at h
    · exact Except.noConfusion h
    · simp only [Except.error.injEq] at h
      exact h.symm

theorem resolveEffectiveDate_eq_nextMonth (today : Date) (row : Row)
    (hped : truthy (row.get "price_effective_date") = false)
    (hym : yearMonthPresent row = false) :
    resolveEffectiveDate today row = nextMonthDate today := by
  unfold resolveEffectiveDate
  simp only [hped, hym, Bool.false_eq_true, if_false]

theorem createPriceSwallow_none (db : DB) (d : Date) (code : Option String) :
    createPriceSwallow db none d code = .error PyExn.typeError := rfl

theorem rowFromValues_get_year_none (vs : List String) :
    (rowFromValues vs).get "year" = none :=
  lookup_zip_eq_none_of_not_mem "year" priceKeys vs (by decide)

theorem rowFromValues_get_price_none (vs : List String) (h : vs.length < 8) :
    (rowFromValues vs).get "price" = none := by
  rcases vs with _ | ⟨a, _ | ⟨b, _ | ⟨c, _ | ⟨d, _ | ⟨e, _ | ⟨f, _ | ⟨g, _ | ⟨i, t⟩⟩⟩⟩⟩⟩⟩⟩
  · rfl
  · rfl
  · rfl
  · rfl
  · rfl
  · rfl
  · rfl
  · rfl
  · simp only [List.length_cons] at h
    omega

theorem rowFromValues_get_ped_none (vs : List String) (h : vs.length < 9) :
    (rowFromValues vs).get "price_effective_date" = none := by
  rcases vs with _ | ⟨a, _ | ⟨b, _ | ⟨c, _ | ⟨d, _ | ⟨e, _ | ⟨f, _ | ⟨g, _ | ⟨i, _ | ⟨j, t⟩⟩⟩⟩⟩⟩⟩⟩⟩
  · rfl
  · rfl
  · rfl
  · rfl
  · rfl
  · rfl
  · rfl
  · rfl
  · rfl
  · simp only [List.length_cons] at h
    omega

theorem importCsvPrices_abort (valid : Option String → Bool) (today : Date)
    (db : DB) (count : Nat) (values : List String) (rest : List (List String))
    (e : PyExn) (hne : values ≠ [])
    (he : product_from_row valid today db (rowFromValues (values.map pyStrip))
      = .error e)
    (hnotm : e ≠ PyExn.multipleObjectsReturned) :
    importCsvPrices valid today db count (values :: rest) = .error e := by
  rw [importCsvPrices]
  rw [if_neg (by simp [hne])]
  rw [he]
  cases e <;> first | rfl | exact absurd rfl hnotm

/-! Section: C7 amended -/

/-- C7 amended: a non-empty age string that does not match the pattern
does not fail silently — provided the earlier steps of the row can
complete (the product lookup finds at most one match, and any per_case
value parses), `product_from_row` raises AttributeError from the
`None.group` access, so the row errors out instead of continuing. -/
theorem product_from_row_bad_age_raises
    (valid : Option String → Bool) (today : Date) (db : DB) (row : Row)
    (a : String)
    (hage : row.get "age" = some a)
    (hne : a ≠ "")
    (hnm : searchAge a.data = none)
    (hvalid : valid (row.get "code") = true)
    (huniq : (db.products.filter (fun q => q.code == row.get "code")).length ≤ 1)
    (hpc : truthy (row.get "per_case") = false ∨
      ∃ n, pyIntFloat ((row.get "per_case").getD "") = Except.ok n) :
    product_from_row valid today db row = .error PyExn.attributeError := by
  obtain ⟨p0, cr, db1, hg⟩ := getOrCreate_ok_of_count_le_one db (row.get "code") huniq
  have hat : truthy (row.get "age") = true := by
    rw [hage]
    simp [truthy, hne]
  have hpa : parseAge ((row.get "age").getD "") = .error PyExn.attributeError := by
    rw [hage]
    simp only [Option.getD_some]
    unfold parseAge
    rw [hnm]
  have hAge : ∀ p : Product, applyAge p row = .error PyExn.attributeError := by
    intro p
    unfold applyAge
    rw [if_pos hat, hpa]
  have hPC : ∀ p : Product, ∃ p3, applyPerCase p row = .ok p3 := by
    intro p
    unfold applyPerCase
    rcases hpc with hf | ⟨n, hn⟩
    · refine ⟨p, ?_⟩
      rw [if_neg (by simp [hf])]
    · by_cases ht : truthy (row.get "per_case") = true
      · rw [if_pos ht, hn]
        exact ⟨_, rfl⟩
      · rw [if_neg ht]
        exact ⟨p, rfl⟩
  have hupd : ∀ p : Product, updateProductFields p row = .error PyExn.attributeError := by
    intro p
    obtain ⟨p3, hp3⟩ := hPC (applySize (applyStatus p row) row)
    unfold updateProductFields
    rw [hp3]
    exact hAge (applyProof p3 row)
  rw [product_from_row, if_pos hvalid]
  simp only [hg, hupd]

/-- Witness for C7 amended at a concrete full row with age "XYZ". -/
theorem product_from_row_bad_age_raises_witness :
    product_from_row (fun _ => true) ⟨2012, 5, 15⟩ ⟨[], []⟩
        (rowFromValues ["8", "A", "T", "S", "XYZ", "", "", "9.99", ""]) =
      .error PyExn.attributeError :=
  product_from_row_bad_age_raises (fun _ => true) ⟨2012, 5, 15⟩ ⟨[], []⟩
    (rowFromValues ["8", "A", "T", "S", "XYZ", "", "", "9.99", ""]) "XYZ"
    (by decide) (by decide) (by decide) (by decide) (by decide)
    (Or.inl (by decide))

/-! Section: C10 amended -/

/-- C10 amended: a non-empty row with a valid code that is too short to
populate `price` (fewer than eight columns) always makes
`product_from_row` raise — a TypeError from the regex substitution on the
missing price when the intermediate field parsers succeed, otherwise the
parser's own error (ValueError or AttributeError) — and the exception is
neither the swallowed IntegrityError nor the per-row-caught
MultipleObjectsReturned, so the row aborts the whole import loop instead
of being skipped. -/
theorem short_row_aborts_import
    (valid : Option String → Bool) (today : Date) (db : DB)
    (values : List String)
    (hne : values ≠ [])
    (hlen : values.length < 8)
    (hvalid : valid ((rowFromValues (values.map pyStrip)).get "code") = true)
    (huniq : (db.products.filter
      (fun q => q.code == (rowFromValues (values.map pyStrip)).get "code")).length
        ≤ 1) :
    ∃ e : PyExn,
      product_from_row valid today db (rowFromValues (values.map pyStrip))
        = .error e ∧
      e ≠ PyExn.integrityError ∧ e ≠ PyExn.multipleObjectsReturned ∧
      ∀ (count : Nat) (rest : List (List String)),
        importCsvPrices valid today db count (values :: rest) = .error e := by
  have hlenm : (values.map pyStrip).length < 8 := by
    rw [List.length_map]
    exact hlen
  have hped : truthy ((rowFromValues (values.map pyStrip)).get
      "price_effective_date") = false := by
    rw [rowFromValues_get_ped_none (values.map pyStrip) (by omega)]
    rfl
  have hym : yearMonthPresent (rowFromValues (values.map pyStrip)) = false := by
    unfold yearMonthPresent
    rw [rowFromValues_get_year_none (values.map pyStrip)]
    rfl
  have hprice : (rowFromValues (values.map pyStrip)).get "price" = none :=
    rowFromValues_get_price_none (values.map pyStrip) hlenm
  have hre : resolveEffectiveDate today (rowFromValues (values.map pyStrip))
      = nextMonthDate today :=
    resolveEffectiveDate_eq_nextMonth today _ hped hym
  obtain ⟨p0, cr, db1, hg⟩ :=
    getOrCreate_ok_of_count_le_one db
      ((rowFromValues (values.map pyStrip)).get "code") huniq
  have main : ∃ e : PyExn,
      product_from_row valid today db (rowFromValues (values.map pyStrip))
        = .error e ∧
      e ≠ PyExn.integrityError ∧ e ≠ PyExn.multipleObjectsReturned := by
    rcases hu : updateProductFields (if cr then { p0 with title := (rowFromValues (values.map pyStrip)).get "title" } else p0) (rowFromValues (values.map pyStrip)) with eu | p2
    · refine ⟨eu, ?_, ?_, ?_⟩
      · rw [product_from_row, if_pos hvalid]
        simp only [hg, hu]
      · rcases updateProductFields_error _ _ eu hu with h | h <;> subst h <;> decide
      · rcases updateProductFields_error _ _ eu hu with h | h <;> subst h <;> decide
    · rcases hn : nextMonthDate today with en | dte
      · refine ⟨en, ?_, ?_, ?_⟩
        · rw [product_from_row, if_pos hvalid]
          simp only [hg, hu, hre, hn]
        · rw [nextMonthDate_error today en hn]
          decide
        · rw [nextMonthDate_error today en hn]
          decide
      · refine ⟨PyExn.typeError, ?_, by decide, by decide⟩
        rw [product_from_row, if_pos hvalid]
        have hcp : createPriceSwallow (saveProduct db1 p2)
            ((rowFromValues (values.map pyStrip)).get "price") dte p2.code
            = .error PyExn.typeError := by
          rw [hprice]
          rfl
        simp only [hg, hu, hre, hn, hcp]
  obtain ⟨e, hpe, h1, h2⟩ := main
  exact ⟨e, hpe, h1, h2, fun count rest =>
    importCsvPrices_abort valid today db count values rest e hne hpe h2⟩

/-- Witness for C10 amended: a one-column row with a valid code aborts
the import loop whatever rows follow it. -/
theorem short_row_aborts_import_witness :
    ∃ e : PyExn,
      product_from_row (fun _ => true) ⟨2012, 5, 15⟩ ⟨[], []⟩
        (rowFromValues (["100"].map pyStrip)) = .error e ∧
      e ≠ PyExn.integrityError ∧ e ≠ PyExn.multipleObjectsReturned ∧
      ∀ (count : Nat) (rest : List (List String)),
        importCsvPrices (fun _ => true) ⟨2012, 5, 15⟩ ⟨[], []⟩ count
          (["100"] :: rest) = .error e :=
  short_row_aborts_import (fun _ => true) ⟨2012, 5, 15⟩ ⟨[], []⟩ ["100"]
    (by decide) (by decide) (by decide) (by decide)
